import Mathlib

/-!
# Verification of the indy-crypto BLS core

Shallow embedding of `src/libindy-crypto/src/bls/mod.rs` and
`src/libindy-crypto/src/pair/amcl.rs`.

The arithmetic kernel (the external `amcl` crate: `BIG`, `ECP`, `ECP2`,
`FP12`, `ate`/`fexp`, `g1mul`, `g2mul`) is out of the repository; following
the specification it is treated as a kernel whose contract is stated:
G1, G2 and GT are groups of prime order `r` and the pairing is bilinear and
non-degenerate.  We therefore model the three groups as `ZMod r` (a cyclic
group of order `r` is isomorphic to `ZMod r`, and under that isomorphism the
pairing `e(aP0, bQ0) = e(P0, Q0)^(a*b)` becomes multiplication in `ZMod r`).
Big integers (`BIG`) are modelled as `Nat`; byte strings as `List (Fin 256)`.
Kernel byte codecs (`tobytes`/`frombytes`) are modelled as fixed-width
big-endian codecs, which realises the stated contract that canonical
encodings are fixed-width and round-trip.  Everything in the `bls` module
itself is translated statement-by-statement from the source.
-/

/-- A byte. -/
abbrev Byte := Fin 256

/-- Value of a little-endian byte list. -/
def leNat : List Byte → Nat
  | [] => 0
  | d :: ds => d.val + 256 * leNat ds

/-- Value of a big-endian byte list (how `BIG::frombytes` reads bytes). -/
def beNat (l : List Byte) : Nat := leNat l.reverse

/-- Little-endian bytes of `n`, exactly `w` bytes (truncating above). -/
def natToBytesLE : Nat → Nat → List Byte
  | 0, _ => []
  | w + 1, n => ⟨n % 256, Nat.mod_lt _ (by decide)⟩ :: natToBytesLE w (n / 256)

/-- Big-endian bytes of `n`, exactly `w` bytes: the kernel's fixed-width
`tobytes` convention (low `w` bytes of the integer, most significant first). -/
def natToBytesBE (w n : Nat) : List Byte := (natToBytesLE w n).reverse

/-- `MODBYTES` of the configured curve (kernel constant `amcl::rom::MODBYTES`).
Modelled from the spec: the byte width of a field element, 32 for the
configured BN254 curve. -/
def MODBYTES : Nat := 32

/-- Subgroup order `r` (kernel constant `amcl::rom::CURVE_ORDER` of BN254).
Modelled from the spec: the prime order of G1 and G2; scalars live modulo `r`. -/
def rOrder : Nat := 0x2523648240000001BA344D8000000007FF9F800000000010A10000000000000D

instance : NeZero rOrder := ⟨by decide⟩

/-- Error type of the library (`src/libindy-crypto/src/errors/mod.rs`).
`IOError` carries an `io::Error` in the source; we keep only its message. -/
inductive IndyCryptoError where
  | InvalidParam1 (msg : String)
  | InvalidParam2 (msg : String)
  | InvalidState (msg : String)
  | InvalidStructure (msg : String)
  | IOError (msg : String)
  deriving DecidableEq

section BasicLemmas

theorem leNat_lt (l : List Byte) : leNat l < 256 ^ l.length := by
  induction l with
  | nil => simp [leNat]
  | cons d ds ih =>
    simp only [leNat, List.length_cons, pow_succ]
    have hd := d.isLt
    omega

theorem beNat_lt (l : List Byte) : beNat l < 256 ^ l.length := by
  have := leNat_lt l.reverse
  simpa [beNat] using this

theorem leNat_natToBytesLE (w n : Nat) : leNat (natToBytesLE w n) = n % 256 ^ w := by
  induction w generalizing n with
  | zero => simp [natToBytesLE, leNat, Nat.mod_one]
  | succ k ih =>
    simp only [natToBytesLE, leNat, ih]
    rw [pow_succ, mul_comm (256 ^ k) 256, Nat.mod_mul]

theorem natToBytesLE_leNat (l : List Byte) : natToBytesLE l.length (leNat l) = l := by
  induction l with
  | nil => simp [natToBytesLE]
  | cons d ds ih =>
    simp only [List.length_cons, natToBytesLE, leNat]
    have hd := d.isLt
    have h2 : (d.val + 256 * leNat ds) / 256 = leNat ds := by omega
    rw [h2, ih]
    refine List.cons_eq_cons.mpr ⟨Fin.ext ?_, rfl⟩
    show (d.val + 256 * leNat ds) % 256 = d.val
    omega

theorem natToBytesLE_length (w n : Nat) : (natToBytesLE w n).length = w := by
  induction w generalizing n with
  | zero => simp [natToBytesLE]
  | succ k ih => simp [natToBytesLE, ih]

theorem natToBytesBE_length (w n : Nat) : (natToBytesBE w n).length = w := by
  simp [natToBytesBE, natToBytesLE_length]

theorem beNat_natToBytesBE (w n : Nat) : beNat (natToBytesBE w n) = n % 256 ^ w := by
  simp [beNat, natToBytesBE, leNat_natToBytesLE]

theorem natToBytesBE_beNat (l : List Byte) : natToBytesBE l.length (beNat l) = l := by
  have h := natToBytesLE_leNat l.reverse
  simp only [List.length_reverse] at h
  simp [natToBytesBE, beNat, h]

theorem leNat_replicate_zero (k : Nat) : leNat (List.replicate k 0) = 0 := by
  induction k with
  | zero => simp [leNat]
  | succ m ih => simp [List.replicate_succ, leNat, ih]

theorem leNat_append_replicate_zero (xs : List Byte) (k : Nat) :
    leNat (xs ++ List.replicate k 0) = leNat xs := by
  induction xs with
  | nil => simpa [leNat] using leNat_replicate_zero k
  | cons d ds ih => simp [leNat, ih]

theorem beNat_replicate_zero_append (k : Nat) (l : List Byte) :
    beNat (List.replicate k 0 ++ l) = beNat l := by
  simp [beNat, List.reverse_append, leNat_append_replicate_zero]

end BasicLemmas

/-!
## The pair layer (`src/libindy-crypto/src/pair/amcl.rs`)

`GroupOrderElement` wraps a kernel big integer `bn : BIG` (modelled as `Nat`;
the wrapper derives `PartialEq`, and the kernel compares `BIG`s as integers,
so equality is equality of the *unreduced* representatives).  `PointG1`,
`PointG2` and `Pair` wrap kernel group elements; as explained above these are
modelled as `ZMod rOrder`.
-/

/-- G1 group element (kernel `ECP`); modelled as `ZMod rOrder`, see header. -/
abbrev PointG1 := ZMod rOrder

/-- G2 group element (kernel `ECP2`); modelled as `ZMod rOrder`, see header. -/
abbrev PointG2 := ZMod rOrder

/-- GT element (kernel `FP12`); modelled as `ZMod rOrder`, see header. -/
abbrev Pair := ZMod rOrder

/-- Kernel `ECP::frombytes`. Modelled from the spec: the kernel's parse of a
fixed-width byte string into a G1 element; it is a left inverse of
`ECP.tobytes` on canonical encodings (the stated kernel contract). -/
def ECP.frombytes (b : List Byte) : PointG1 := ((beNat b : Nat) : ZMod rOrder)

/-- Kernel `ECP::tobytes` into a `4 * MODBYTES` buffer. Modelled from the
spec: a fixed-width injective encoding of a G1 element. -/
def ECP.tobytes (p : PointG1) : List Byte := natToBytesBE (MODBYTES * 4) p.val

/-- Kernel `ECP2::frombytes`; see `ECP.frombytes`. -/
def ECP2.frombytes (b : List Byte) : PointG2 := ((beNat b : Nat) : ZMod rOrder)

/-- Kernel `ECP2::tobytes`; see `ECP.tobytes`. -/
def ECP2.tobytes (q : PointG2) : List Byte := natToBytesBE (MODBYTES * 4) q.val

/-- Scalar: wraps a kernel big integer, possibly unreduced (`from_bytes`
performs no reduction modulo `rOrder`).  The source derives `PartialEq`, and
the kernel compares `BIG`s numerically, hence the derived decidable equality
on the raw representative. -/
structure GroupOrderElement where
  bn : Nat
  deriving DecidableEq

namespace GroupOrderElement

/-- `GroupOrderElement::BYTES_REPR_SIZE = MODBYTES`. -/
def BYTES_REPR_SIZE : Nat := MODBYTES

/-- `GroupOrderElement::to_bytes`: fixed-width big-endian bytes of `bn`
(kernel `BIG::tobytes` writes the low `MODBYTES` bytes, most significant
first, into a buffer of exactly `MODBYTES` bytes). -/
def to_bytes (x : GroupOrderElement) : List Byte := natToBytesBE MODBYTES x.bn

/-- `GroupOrderElement::from_bytes`: rejects inputs longer than `MODBYTES`,
left-pads shorter inputs with zero bytes, and reads the bytes big-endian.
No reduction modulo the group order is performed. -/
def from_bytes (b : List Byte) : Except IndyCryptoError GroupOrderElement :=
  if b.length > BYTES_REPR_SIZE then
    .error (.InvalidStructure "Invalid len of bytes representation")
  else if b.length < MODBYTES then
    .ok ⟨beNat (List.replicate (MODBYTES - b.length) 0 ++ b)⟩
  else
    .ok ⟨beNat b⟩

/-- Kernel `BIG::invmodp`. Modelled from the spec: modular inversion in the
arithmetic kernel; the concrete value on non-invertible inputs is irrelevant
to the claims (only the absence of an error path in `inverse` matters). -/
def invmodpModel (a : Nat) : Nat := (((a : ZMod rOrder))⁻¹).val

/-- `GroupOrderElement::inverse`: calls the kernel's `invmodp` and wraps the
result in `Ok`.  The source has no error path. -/
def inverse (x : GroupOrderElement) : Except IndyCryptoError GroupOrderElement :=
  .ok ⟨invmodpModel x.bn⟩

end GroupOrderElement

namespace PointG1

/-- `PointG1::BYTES_REPR_SIZE = MODBYTES * 4`. -/
def BYTES_REPR_SIZE : Nat := MODBYTES * 4

/-- `PointG1::new_inf`: the identity of G1. -/
def new_inf : PointG1 := 0

/-- `PointG1::mul`: `g1mul(point, e.bn)`, scalar multiplication by the (raw)
representative of `e`; in the order-`r` group this is multiplication by
`e.bn mod r`. -/
def mul (p : PointG1) (e : GroupOrderElement) : PointG1 := ((e.bn : Nat) : ZMod rOrder) * p

/-- `PointG1::add`: the group operation of G1. -/
def add (p q : PointG1) : PointG1 := p + q

/-- `PointG1::to_bytes`: kernel serialization into `4 * MODBYTES` bytes. -/
def to_bytes (p : PointG1) : List Byte := ECP.tobytes p

/-- `PointG1::from_bytes`: exact-length check, then the kernel parse.  No
other validation is performed. -/
def from_bytes (b : List Byte) : Except IndyCryptoError PointG1 :=
  if b.length ≠ BYTES_REPR_SIZE then
    .error (.InvalidStructure "Invalid len of bytes representation")
  else
    .ok (ECP.frombytes b)

/-- Kernel `ECP::new_big` together with the try-and-increment loop of
`PointG1::from_hash`.  Modelled from the spec: a deterministic map from a
big integer to a non-identity G1 point, incrementing while the construction
yields the identity (in the model a single increment always suffices). -/
def newBigPoint (bn : Nat) : PointG1 :=
  if ((bn : Nat) : ZMod rOrder) = 0 then (((bn + 1 : Nat)) : ZMod rOrder)
  else ((bn : Nat) : ZMod rOrder)

/-- `PointG1::from_hash`: reads the digest through
`GroupOrderElement::from_bytes`, then maps it to a point. -/
def from_hash (hash : List Byte) : Except IndyCryptoError PointG1 := do
  let el ← GroupOrderElement.from_bytes hash
  pure (newBigPoint el.bn)

end PointG1

namespace PointG2

/-- `PointG2::BYTES_REPR_SIZE = MODBYTES * 4`. -/
def BYTES_REPR_SIZE : Nat := MODBYTES * 4

/-- `PointG2::new_inf`: the identity of G2. -/
def new_inf : PointG2 := 0

/-- `PointG2::mul`: `g2mul(point, e.bn)`. -/
def mul (q : PointG2) (e : GroupOrderElement) : PointG2 := ((e.bn : Nat) : ZMod rOrder) * q

/-- `PointG2::add`: the group operation of G2. -/
def add (p q : PointG2) : PointG2 := p + q

/-- `PointG2::to_bytes`: kernel serialization into `4 * MODBYTES` bytes. -/
def to_bytes (q : PointG2) : List Byte := ECP2.tobytes q

/-- `PointG2::from_bytes`: exact-length check, then the kernel parse. -/
def from_bytes (b : List Byte) : Except IndyCryptoError PointG2 :=
  if b.length ≠ BYTES_REPR_SIZE then
    .error (.InvalidStructure "Invalid len of bytes representation")
  else
    .ok (ECP2.frombytes b)

end PointG2

/-- `Pair::pair(p, q) = fexp(ate(q, p))` reduced: the bilinear pairing.  In
the `ZMod rOrder` model of the three groups the pairing is multiplication
(see the header). -/
def Pair.pair (p : PointG1) (q : PointG2) : Pair := p * q


/-!
## The BLS layer (`src/libindy-crypto/src/bls/mod.rs`)

Each wrapper type stores both the group element and a byte vector: the
constructors store `point.to_bytes()`, the `from_bytes` constructors store
the input bytes *verbatim* (no re-encoding, no validation beyond the length
check performed by the pair layer).
-/

/-- SHA-256 (`sha2` crate). Modelled from the spec: an external 32-byte
digest function; it only matters that it is a fixed deterministic map to
32-byte strings, distinct from the Keccak-256 one. -/
def sha256Model (m : List Byte) : List Byte := natToBytesBE 32 (beNat (0 :: m))

/-- Keccak-256 (`sha3` crate). Modelled from the spec: an external 32-byte
digest function, distinct from the SHA-256 one. -/
def keccak256Model (m : List Byte) : List Byte := natToBytesBE 32 (beNat (1 :: m))

/-- BLS generator point (`Generator`): a G2 point plus its cached bytes. -/
structure Generator where
  point : PointG2
  bytes : List Byte
  deriving DecidableEq

namespace Generator

/-- `Generator::as_bytes`. -/
def as_bytes (g : Generator) : List Byte := g.bytes

/-- `Generator::from_bytes`: decodes the point and stores the input bytes
verbatim. -/
def from_bytes (b : List Byte) : Except IndyCryptoError Generator := do
  let point ← PointG2.from_bytes b
  pure { point := point, bytes := b }

end Generator

/-- BLS sign key (`SignKey`): a scalar plus its cached bytes. -/
structure SignKey where
  group_order_element : GroupOrderElement
  bytes : List Byte
  deriving DecidableEq

namespace SignKey

/-- `SignKey::as_bytes`. -/
def as_bytes (sk : SignKey) : List Byte := sk.bytes

/-- `SignKey::from_bytes`: decodes the scalar and stores the input bytes
verbatim. -/
def from_bytes (b : List Byte) : Except IndyCryptoError SignKey := do
  let goe ← GroupOrderElement.from_bytes b
  pure { group_order_element := goe, bytes := b }

end SignKey

/-- BLS verification key (`VerKey`): a G2 point plus its cached bytes. -/
structure VerKey where
  point : PointG2
  bytes : List Byte
  deriving DecidableEq

namespace VerKey

/-- `VerKey::new(gen, sign_key)`: `gen.point.mul(sign_key.group_order_element)`,
with the canonical bytes of the resulting point cached.  The source returns
`Result` but has no error path, so the model is total. -/
def new (gen : Generator) (sign_key : SignKey) : VerKey :=
  let point := PointG2.mul gen.point sign_key.group_order_element
  { point := point, bytes := PointG2.to_bytes point }

/-- `VerKey::as_bytes`. -/
def as_bytes (vk : VerKey) : List Byte := vk.bytes

/-- `VerKey::from_bytes`: decodes the point and stores the input bytes
verbatim (no subgroup check, no re-encoding). -/
def from_bytes (b : List Byte) : Except IndyCryptoError VerKey := do
  let point ← PointG2.from_bytes b
  pure { point := point, bytes := b }

end VerKey

/-- BLS signature (`Signature`): a G1 point plus its cached bytes. -/
structure Signature where
  point : PointG1
  bytes : List Byte
  deriving DecidableEq

namespace Signature

/-- `Signature::as_bytes`. -/
def as_bytes (s : Signature) : List Byte := s.bytes

/-- `Signature::from_bytes`: decodes the point and stores the input bytes
verbatim. -/
def from_bytes (b : List Byte) : Except IndyCryptoError Signature := do
  let point ← PointG1.from_bytes b
  pure { point := point, bytes := b }

end Signature

/-- BLS multi signature (`MultiSignature`): a G1 point plus its cached bytes. -/
structure MultiSignature where
  point : PointG1
  bytes : List Byte
  deriving DecidableEq

namespace MultiSignature

/-- `MultiSignature::new(signatures)`: folds the G1 addition over the list,
starting from the identity, and caches the canonical bytes of the sum.  The
source returns `Result` but has no error path, so the model is total. -/
def new (signatures : List Signature) : MultiSignature :=
  let point := signatures.foldl (fun acc s => PointG1.add acc s.point) PointG1.new_inf
  { point := point, bytes := PointG1.to_bytes point }

/-- `MultiSignature::as_bytes`. -/
def as_bytes (m : MultiSignature) : List Byte := m.bytes

/-- `MultiSignature::from_bytes`: decodes the point and stores the input
bytes verbatim. -/
def from_bytes (b : List Byte) : Except IndyCryptoError MultiSignature := do
  let point ← PointG1.from_bytes b
  pure { point := point, bytes := b }

end MultiSignature

/-- BLS proof of possession (`ProofOfPossession`): a G1 point plus its
cached bytes. -/
structure ProofOfPossession where
  point : PointG1
  bytes : List Byte
  deriving DecidableEq

namespace Bls

/-- `Bls::_hash(message, hasher)`: digest the message, then hash-to-G1. -/
def _hash (message : List Byte) (hasher : List Byte → List Byte) :
    Except IndyCryptoError PointG1 :=
  PointG1.from_hash (hasher message)

/-- `Bls::_gen_signature(message, sign_key, hasher)`:
`H(message).mul(sign_key.group_order_element)`. -/
def _gen_signature (message : List Byte) (sign_key : SignKey)
    (hasher : List Byte → List Byte) : Except IndyCryptoError PointG1 := do
  let h ← _hash message hasher
  pure (PointG1.mul h sign_key.group_order_element)

/-- `Bls::_verify_signature(signature, message, ver_key, gen, hasher)`:
`pair(signature, gen.point) == pair(H(message), ver_key)`. -/
def _verify_signature (signature : PointG1) (message : List Byte)
    (ver_key : PointG2) (gen : Generator) (hasher : List Byte → List Byte) :
    Except IndyCryptoError Bool := do
  let h ← _hash message hasher
  pure (decide (Pair.pair signature gen.point = Pair.pair h ver_key))

/-- `Bls::sign(message, sign_key)`: `_gen_signature` with SHA-256. -/
def sign (message : List Byte) (sign_key : SignKey) :
    Except IndyCryptoError Signature := do
  let point ← _gen_signature message sign_key sha256Model
  pure { point := point, bytes := PointG1.to_bytes point }

/-- `Bls::verify(signature, message, ver_key, gen)`: `_verify_signature`
with SHA-256. -/
def verify (signature : Signature) (message : List Byte) (ver_key : VerKey)
    (gen : Generator) : Except IndyCryptoError Bool :=
  _verify_signature signature.point message ver_key.point gen sha256Model

/-- `Bls::verify_proof_of_posession(pop, ver_key, gen)`: `_verify_signature`
with Keccak-256, on the ver key's cached bytes as the message. -/
def verify_proof_of_posession (pop : ProofOfPossession) (ver_key : VerKey)
    (gen : Generator) : Except IndyCryptoError Bool :=
  _verify_signature pop.point ver_key.bytes ver_key.point gen keccak256Model

/-- `Bls::verify_multi_sig(multi_sig, message, ver_keys, gen)`: folds the
G2 addition over the ver keys, then `_verify_signature` with SHA-256 against
the aggregated ver key. -/
def verify_multi_sig (multi_sig : MultiSignature) (message : List Byte)
    (ver_keys : List VerKey) (gen : Generator) : Except IndyCryptoError Bool :=
  let aggregated_verkey :=
    ver_keys.foldl (fun acc vk => PointG2.add acc vk.point) PointG2.new_inf
  _verify_signature multi_sig.point message aggregated_verkey gen sha256Model

end Bls

namespace ProofOfPossession

/-- `ProofOfPossession::new(ver_key, sign_key)`: `_gen_signature` with
Keccak-256, on the ver key's cached bytes as the message. -/
def new (ver_key : VerKey) (sign_key : SignKey) :
    Except IndyCryptoError ProofOfPossession := do
  let point ← Bls._gen_signature ver_key.bytes sign_key keccak256Model
  pure { point := point, bytes := PointG1.to_bytes point }

/-- `ProofOfPossession::as_bytes`. -/
def as_bytes (p : ProofOfPossession) : List Byte := p.bytes

/-- `ProofOfPossession::from_bytes`: decodes the point and stores the input
bytes verbatim. -/
def from_bytes (b : List Byte) : Except IndyCryptoError ProofOfPossession := do
  let point ← PointG1.from_bytes b
  pure { point := point, bytes := b }

end ProofOfPossession

deriving instance DecidableEq for Except

/-!
## Reduction lemmas

The `Result`-returning operations of the source never fail once their inputs
have the right lengths; these lemmas compute their `Ok` values.
-/

theorem sha256Model_length (m : List Byte) : (sha256Model m).length = MODBYTES := by
  simp [sha256Model, natToBytesBE_length, MODBYTES]

theorem keccak256Model_length (m : List Byte) : (keccak256Model m).length = MODBYTES := by
  simp [keccak256Model, natToBytesBE_length, MODBYTES]

theorem goe_from_bytes_exact (b : List Byte)
    (hb : b.length = MODBYTES) :
    GroupOrderElement.from_bytes b = .ok ⟨beNat b⟩ := by
  simp [GroupOrderElement.from_bytes, GroupOrderElement.BYTES_REPR_SIZE, hb]

theorem PointG1.from_hash_of_length (b : List Byte) (hb : b.length = MODBYTES) :
    PointG1.from_hash b = .ok (PointG1.newBigPoint (beNat b)) := by
  simp [PointG1.from_hash, goe_from_bytes_exact b hb]

theorem Bls._hash_eq (message : List Byte) (hasher : List Byte → List Byte)
    (hh : (hasher message).length = MODBYTES) :
    Bls._hash message hasher = .ok (PointG1.newBigPoint (beNat (hasher message))) := by
  simp [Bls._hash, PointG1.from_hash_of_length _ hh]

theorem Bls._gen_signature_eq (message : List Byte) (sign_key : SignKey)
    (hasher : List Byte → List Byte) (hh : (hasher message).length = MODBYTES) :
    Bls._gen_signature message sign_key hasher
      = .ok (PointG1.mul (PointG1.newBigPoint (beNat (hasher message)))
          sign_key.group_order_element) := by
  simp [Bls._gen_signature, Bls._hash_eq _ _ hh]

theorem Bls._verify_signature_eq (signature : PointG1) (message : List Byte)
    (ver_key : PointG2) (gen : Generator) (hasher : List Byte → List Byte)
    (hh : (hasher message).length = MODBYTES) :
    Bls._verify_signature signature message ver_key gen hasher
      = .ok (decide (Pair.pair signature gen.point
          = Pair.pair (PointG1.newBigPoint (beNat (hasher message))) ver_key)) := by
  simp [Bls._verify_signature, Bls._hash_eq _ _ hh]

theorem Bls.sign_eq (message : List Byte) (sign_key : SignKey) :
    Bls.sign message sign_key
      = .ok { point := PointG1.mul (PointG1.newBigPoint (beNat (sha256Model message)))
                sign_key.group_order_element,
              bytes := PointG1.to_bytes (PointG1.mul
                (PointG1.newBigPoint (beNat (sha256Model message)))
                sign_key.group_order_element) } := by
  simp [Bls.sign, Bls._gen_signature_eq _ _ _ (sha256Model_length message)]

/-- The pairing shift underlying all BLS verification: multiplying the G1
argument by a scalar equals multiplying the G2 argument by the same scalar. -/
theorem Pair.pair_mul_shift (h : PointG1) (e : GroupOrderElement) (q : PointG2) :
    Pair.pair (PointG1.mul h e) q = Pair.pair h (PointG2.mul q e) := by
  simp only [Pair.pair, PointG1.mul, PointG2.mul]
  ring

/-- Rewriting a bound `Except` computation whose first step is known to
succeed. -/
theorem except_bind_ok {α β : Type} {e : Except IndyCryptoError α} {a : α}
    (f : α → Except IndyCryptoError β) (he : e = .ok a) : (e >>= f) = f a := by
  rw [he]; rfl

/-!
## Claims
-/

/-- C1: For every signing key `sk` (seed-derived or random — the statement
quantifies over all `SignKey` values), every message `m`, and every
generator `g`, verifying the signature produced by `sign` succeeds:
`verify(sign(m, sk), m, VerKey::new(g, sk), g)` returns `Ok(true)`. -/
theorem c1_sign_then_verify_succeeds (sk : SignKey) (g : Generator) (m : List Byte) :
    (do
      let s ← Bls.sign m sk
      Bls.verify s m (VerKey.new g sk) g) = Except.ok true := by
  rw [except_bind_ok _ (Bls.sign_eq m sk)]
  rw [Bls.verify, Bls._verify_signature_eq _ _ _ _ _ (sha256Model_length m)]
  refine congrArg Except.ok (decide_eq_true ?_)
  show Pair.pair
      (PointG1.mul (PointG1.newBigPoint (beNat (sha256Model m))) sk.group_order_element)
      g.point
    = Pair.pair (PointG1.newBigPoint (beNat (sha256Model m)))
        (PointG2.mul g.point sk.group_order_element)
  rw [Pair.pair_mul_shift]

/-- C3: For every signing key `sk` and generator `g`, with
`vk = VerKey::new(g, sk)`, the proof of possession verifies:
`verify_proof_of_posession(ProofOfPossession::new(vk, sk), vk, g)` returns
`Ok(true)`; moreover the proof's point is the scalar `sk` times the
Keccak-256-based hash-to-G1 of the verification key's byte encoding. -/
theorem c3_proof_of_possession_correct (sk : SignKey) (g : Generator) :
    ((do
        let pop ← ProofOfPossession.new (VerKey.new g sk) sk
        Bls.verify_proof_of_posession pop (VerKey.new g sk) g) = Except.ok true)
    ∧ (ProofOfPossession.new (VerKey.new g sk) sk).map (fun p => p.point)
        = (Bls._hash (VerKey.new g sk).bytes keccak256Model).map
            (fun h => PointG1.mul h sk.group_order_element) := by
  have hgen := Bls._gen_signature_eq (VerKey.new g sk).bytes sk keccak256Model
    (keccak256Model_length _)
  have hnew : ProofOfPossession.new (VerKey.new g sk) sk
      = .ok { point := PointG1.mul
                (PointG1.newBigPoint (beNat (keccak256Model (VerKey.new g sk).bytes)))
                sk.group_order_element,
              bytes := PointG1.to_bytes (PointG1.mul
                (PointG1.newBigPoint (beNat (keccak256Model (VerKey.new g sk).bytes)))
                sk.group_order_element) } := by
    simp [ProofOfPossession.new, hgen]
  constructor
  · rw [except_bind_ok _ hnew]
    rw [Bls.verify_proof_of_posession,
      Bls._verify_signature_eq _ _ _ _ _ (keccak256Model_length _)]
    refine congrArg Except.ok (decide_eq_true ?_)
    show Pair.pair
        (PointG1.mul (PointG1.newBigPoint (beNat (keccak256Model (VerKey.new g sk).bytes)))
          sk.group_order_element)
        g.point
      = Pair.pair (PointG1.newBigPoint (beNat (keccak256Model (VerKey.new g sk).bytes)))
          (PointG2.mul g.point sk.group_order_element)
    rw [Pair.pair_mul_shift]
  · rw [hnew, Bls._hash_eq _ _ (keccak256Model_length _)]
    simp only [Except.map]

/-- C7 (counterexample): calling `inverse()` on the zero scalar does NOT
fail: the result is `Ok`, so in particular it is not the claimed
`InvalidStructure` error. -/
theorem c7_counterexample_inverse_zero_returns_ok :
    (GroupOrderElement.inverse ⟨0⟩).isOk = true := by decide

/-- C7 (amended): `inverse()` never fails: for every scalar, including zero,
it wraps the kernel's `invmodp` result in `Ok`; the source contains no error
path, so no `InvalidStructure` error is ever produced (and in particular
`inverse` succeeds on every nonzero scalar). -/
theorem c7_amended_inverse_always_ok (x : GroupOrderElement) :
    (GroupOrderElement.inverse x).isOk = true := rfl

/-- C6 (counterexample): the scalar decoded from the 32-byte big-endian
encoding of the group order `r` and the scalar decoded from 32 zero bytes
have equal representatives modulo `r`, yet compare unequal, because
`from_bytes` stores the representative unreduced and the derived equality
compares raw representatives. -/
theorem c6_counterexample_unreduced_scalars_compare_unequal :
    GroupOrderElement.from_bytes (natToBytesBE 32 rOrder) = .ok ⟨rOrder⟩
    ∧ GroupOrderElement.from_bytes (List.replicate 32 0) = .ok ⟨0⟩
    ∧ (⟨rOrder⟩ : GroupOrderElement) ≠ ⟨0⟩
    ∧ rOrder % rOrder = 0 % rOrder := by decide

/-- C6 (amended): equality of `GroupOrderElement`s is equality of the raw
(unreduced) representatives; it coincides with equality of the
representatives reduced modulo `r` exactly on scalars whose representatives
are already reduced (which every arithmetic constructor of the source
produces, but `from_bytes` does not enforce). -/
theorem c6_amended_equality_is_raw_equality :
    (∀ a b : GroupOrderElement, a = b ↔ a.bn = b.bn)
    ∧ (∀ a b : GroupOrderElement, a.bn < rOrder → b.bn < rOrder →
        (a = b ↔ a.bn % rOrder = b.bn % rOrder)) := by
  constructor
  · intro a b
    cases a; cases b
    simp
  · intro a b ha hb
    rw [Nat.mod_eq_of_lt ha, Nat.mod_eq_of_lt hb]
    cases a; cases b
    simp

/-- Witness for C6 (amended), at concrete reduced scalars. -/
theorem c6_amended_witness :
    ((⟨3⟩ : GroupOrderElement) = ⟨3⟩ ↔ (3 : Nat) % rOrder = 3 % rOrder)
    ∧ ((⟨5⟩ : GroupOrderElement) = ⟨7⟩ ↔ (5 : Nat) = 7) :=
  ⟨c6_amended_equality_is_raw_equality.2 ⟨3⟩ ⟨3⟩ (by decide) (by decide),
   c6_amended_equality_is_raw_equality.1 ⟨5⟩ ⟨7⟩⟩

/-- C5 (counterexample): the 1-byte string `[1]` is accepted by the scalar
decoder, but re-encoding the decoded value yields the 32-byte left-padded
form, not `[1]`. -/
theorem c5_counterexample_short_input_reencodes_padded :
    (GroupOrderElement.from_bytes [1]).map GroupOrderElement.to_bytes
      = .ok (List.replicate 31 0 ++ [1])
    ∧ List.replicate 31 (0 : Byte) ++ [1] ≠ [1] := by decide

/-- C5 (amended): for every byte string of length exactly `MODBYTES` the
scalar decoder's round-trip re-encodes it exactly; an accepted shorter
input re-encodes to its zero-left-padded `MODBYTES`-byte form instead. -/
theorem c5_amended_reencode_decoded (b : List Byte) :
    (b.length = MODBYTES →
      (GroupOrderElement.from_bytes b).map GroupOrderElement.to_bytes = .ok b)
    ∧ (b.length < MODBYTES →
      (GroupOrderElement.from_bytes b).map GroupOrderElement.to_bytes
        = .ok (List.replicate (MODBYTES - b.length) 0 ++ b)) := by
  constructor
  · intro hb
    rw [goe_from_bytes_exact b hb]
    simp only [Except.map, GroupOrderElement.to_bytes]
    rw [← hb, natToBytesBE_beNat]
  · intro hb
    have hng : ¬ (b.length > GroupOrderElement.BYTES_REPR_SIZE) := by
      simp only [GroupOrderElement.BYTES_REPR_SIZE]
      omega
    simp only [GroupOrderElement.from_bytes, hng, if_false, hb, if_true, Except.map,
      GroupOrderElement.to_bytes]
    set l := List.replicate (MODBYTES - b.length) (0 : Byte) ++ b with hl
    have hlen : l.length = MODBYTES := by
      rw [hl]
      simp only [List.length_append, List.length_replicate]
      omega
    conv_lhs => rw [← hlen]
    rw [natToBytesBE_beNat]

/-- The byte vector of the repository's own round-trip test
(`from_bytes_to_bytes_works_for_group_order_element`). -/
def testVec32 : List Byte :=
  [0, 0, 0, 0, 0, 0, 0, 0, 0, 0, 0, 0, 0, 0, 0, 0,
   116, 221, 243, 243, 0, 77, 170, 65, 179, 245, 119, 182, 251, 185, 78, 98]

/-- Witness for C5 (amended): the repository's own test vector for the full
width, and `[1]` for the short case. -/
theorem c5_amended_witness :
    (GroupOrderElement.from_bytes testVec32).map GroupOrderElement.to_bytes = .ok testVec32
    ∧ (GroupOrderElement.from_bytes [1]).map GroupOrderElement.to_bytes
        = .ok (List.replicate (MODBYTES - [1].length) 0 ++ [1]) :=
  ⟨(c5_amended_reencode_decoded testVec32).1 (by decide),
   (c5_amended_reencode_decoded [1]).2 (by decide)⟩

/-!
## Decoder helper lemmas and reachability invariants
-/

theorem GroupOrderElement.from_bytes_of_le (b : List Byte) (hb : b.length ≤ MODBYTES) :
    GroupOrderElement.from_bytes b = .ok ⟨beNat b⟩ := by
  rcases Nat.lt_or_ge b.length MODBYTES with hlt | hge
  · have hng : ¬ (b.length > GroupOrderElement.BYTES_REPR_SIZE) := by
      simp only [GroupOrderElement.BYTES_REPR_SIZE]
      omega
    simp only [GroupOrderElement.from_bytes, hng, if_false, hlt, if_true,
      beNat_replicate_zero_append]
  · exact goe_from_bytes_exact b (Nat.le_antisymm hb hge)

theorem pointG1_from_bytes_exact (b : List Byte) (hb : b.length = MODBYTES * 4) :
    PointG1.from_bytes b = .ok (ECP.frombytes b) := by
  rw [PointG1.from_bytes, if_neg (by simp [PointG1.BYTES_REPR_SIZE, hb])]

theorem pointG2_from_bytes_exact (b : List Byte) (hb : b.length = MODBYTES * 4) :
    PointG2.from_bytes b = .ok (ECP2.frombytes b) := by
  rw [PointG2.from_bytes, if_neg (by simp [PointG2.BYTES_REPR_SIZE, hb])]

theorem rOrder_lt_pow : rOrder < 256 ^ (MODBYTES * 4) := by decide

theorem ecp_tobytes_length (p : PointG1) : (ECP.tobytes p).length = MODBYTES * 4 :=
  natToBytesBE_length _ _

theorem ecp2_tobytes_length (q : PointG2) : (ECP2.tobytes q).length = MODBYTES * 4 :=
  natToBytesBE_length _ _

theorem ecp_frombytes_tobytes (p : PointG1) : ECP.frombytes (ECP.tobytes p) = p := by
  rw [ECP.frombytes, ECP.tobytes, beNat_natToBytesBE,
    Nat.mod_eq_of_lt (lt_trans (ZMod.val_lt p) rOrder_lt_pow)]
  exact ZMod.natCast_rightInverse p

theorem ecp2_frombytes_tobytes (q : PointG2) : ECP2.frombytes (ECP2.tobytes q) = q := by
  rw [ECP2.frombytes, ECP2.tobytes, beNat_natToBytesBE,
    Nat.mod_eq_of_lt (lt_trans (ZMod.val_lt q) rOrder_lt_pow)]
  exact ZMod.natCast_rightInverse q

/-- Reachability invariant of `GroupOrderElement`: every public constructor
of the source yields a representative below `2^(8*MODBYTES)` (random, seeded
and modular-arithmetic constructors return values reduced below `rOrder`;
`from_bytes` reads at most `MODBYTES` bytes). -/
abbrev GroupOrderElement.WF (x : GroupOrderElement) : Prop := x.bn < 256 ^ MODBYTES

/-- Reachability invariant of `Generator`: `new` caches the canonical bytes
of its point (and the kernel decode of a canonical encoding is the encoded
point), `from_bytes` stores the bytes it decoded the point from. -/
abbrev Generator.WF (g : Generator) : Prop :=
  g.bytes.length = MODBYTES * 4 ∧ g.point = ECP2.frombytes g.bytes

/-- Reachability invariant of `SignKey`; see `Generator.WF`. -/
abbrev SignKey.WF (sk : SignKey) : Prop :=
  sk.bytes.length ≤ MODBYTES ∧ sk.group_order_element = ⟨beNat sk.bytes⟩

/-- Reachability invariant of `VerKey`; see `Generator.WF`. -/
abbrev VerKey.WF (vk : VerKey) : Prop :=
  vk.bytes.length = MODBYTES * 4 ∧ vk.point = ECP2.frombytes vk.bytes

/-- Reachability invariant of `Signature`; see `Generator.WF`. -/
abbrev Signature.WF (s : Signature) : Prop :=
  s.bytes.length = MODBYTES * 4 ∧ s.point = ECP.frombytes s.bytes

/-- Reachability invariant of `MultiSignature`; see `Generator.WF`. -/
abbrev MultiSignature.WF (m : MultiSignature) : Prop :=
  m.bytes.length = MODBYTES * 4 ∧ m.point = ECP.frombytes m.bytes

/-- Reachability invariant of `ProofOfPossession`; see `Generator.WF`. -/
abbrev ProofOfPossession.WF (p : ProofOfPossession) : Prop :=
  p.bytes.length = MODBYTES * 4 ∧ p.point = ECP.frombytes p.bytes

/-- C4 (counterexample): a `SignKey` decoded from the accepted 1-byte string
`[1]` exposes an encoding of length 1, so the encoded length of `SignKey`
(`MODBYTES` per the claim) is not a fixed constant over all values of the
type. -/
theorem c4_counterexample_signkey_short_encoding :
    (SignKey.from_bytes [1]).map (fun sk => (SignKey.as_bytes sk).length) = .ok 1
    ∧ (1 : Nat) ≠ MODBYTES := by decide

/-- C4 (amended): decoding the encoding gives the value back for every
reachable value of every type, and the encoded length is the fixed constant
of the type — `MODBYTES` for scalars and at most `MODBYTES` for `SignKey`
(exactly the length of the byte string a `SignKey` was constructed from),
`4 * MODBYTES` for all G1- and G2-valued types. -/
theorem c4_amended_decode_encode_roundtrip :
    (∀ x : GroupOrderElement, x.WF →
      GroupOrderElement.from_bytes (GroupOrderElement.to_bytes x) = .ok x
      ∧ (GroupOrderElement.to_bytes x).length = MODBYTES)
    ∧ (∀ p : PointG1, PointG1.from_bytes (PointG1.to_bytes p) = .ok p
        ∧ (PointG1.to_bytes p).length = MODBYTES * 4)
    ∧ (∀ q : PointG2, PointG2.from_bytes (PointG2.to_bytes q) = .ok q
        ∧ (PointG2.to_bytes q).length = MODBYTES * 4)
    ∧ (∀ g : Generator, g.WF → Generator.from_bytes (Generator.as_bytes g) = .ok g
        ∧ (Generator.as_bytes g).length = MODBYTES * 4)
    ∧ (∀ sk : SignKey, sk.WF → SignKey.from_bytes (SignKey.as_bytes sk) = .ok sk
        ∧ (SignKey.as_bytes sk).length ≤ MODBYTES)
    ∧ (∀ vk : VerKey, vk.WF → VerKey.from_bytes (VerKey.as_bytes vk) = .ok vk
        ∧ (VerKey.as_bytes vk).length = MODBYTES * 4)
    ∧ (∀ s : Signature, s.WF → Signature.from_bytes (Signature.as_bytes s) = .ok s
        ∧ (Signature.as_bytes s).length = MODBYTES * 4)
    ∧ (∀ ms : MultiSignature, ms.WF →
        MultiSignature.from_bytes (MultiSignature.as_bytes ms) = .ok ms
        ∧ (MultiSignature.as_bytes ms).length = MODBYTES * 4)
    ∧ (∀ pp : ProofOfPossession, pp.WF →
        ProofOfPossession.from_bytes (ProofOfPossession.as_bytes pp) = .ok pp
        ∧ (ProofOfPossession.as_bytes pp).length = MODBYTES * 4) := by
  refine ⟨?_, ?_, ?_, ?_, ?_, ?_, ?_, ?_, ?_⟩
  · intro x hx
    refine ⟨?_, natToBytesBE_length _ _⟩
    rw [GroupOrderElement.to_bytes,
      goe_from_bytes_exact _ (natToBytesBE_length _ _),
      beNat_natToBytesBE, Nat.mod_eq_of_lt hx]
  · intro p
    refine ⟨?_, ecp_tobytes_length p⟩
    rw [PointG1.to_bytes, pointG1_from_bytes_exact _ (ecp_tobytes_length p),
      ecp_frombytes_tobytes]
  · intro q
    refine ⟨?_, ecp2_tobytes_length q⟩
    rw [PointG2.to_bytes, pointG2_from_bytes_exact _ (ecp2_tobytes_length q),
      ecp2_frombytes_tobytes]
  · intro g hg
    obtain ⟨hlen, hpt⟩ := hg
    refine ⟨?_, hlen⟩
    show Generator.from_bytes g.bytes = .ok g
    rw [Generator.from_bytes, except_bind_ok _ (pointG2_from_bytes_exact _ hlen), ← hpt]
    rfl
  · intro sk hsk
    obtain ⟨hlen, hgoe⟩ := hsk
    refine ⟨?_, hlen⟩
    show SignKey.from_bytes sk.bytes = .ok sk
    rw [SignKey.from_bytes, except_bind_ok _ (GroupOrderElement.from_bytes_of_le _ hlen),
      ← hgoe]
    rfl
  · intro vk hvk
    obtain ⟨hlen, hpt⟩ := hvk
    refine ⟨?_, hlen⟩
    show VerKey.from_bytes vk.bytes = .ok vk
    rw [VerKey.from_bytes, except_bind_ok _ (pointG2_from_bytes_exact _ hlen), ← hpt]
    rfl
  · intro s hs
    obtain ⟨hlen, hpt⟩ := hs
    refine ⟨?_, hlen⟩
    show Signature.from_bytes s.bytes = .ok s
    rw [Signature.from_bytes, except_bind_ok _ (pointG1_from_bytes_exact _ hlen), ← hpt]
    rfl
  · intro ms hms
    obtain ⟨hlen, hpt⟩ := hms
    refine ⟨?_, hlen⟩
    show MultiSignature.from_bytes ms.bytes = .ok ms
    rw [MultiSignature.from_bytes, except_bind_ok _ (pointG1_from_bytes_exact _ hlen),
      ← hpt]
    rfl
  · intro pp hpp
    obtain ⟨hlen, hpt⟩ := hpp
    refine ⟨?_, hlen⟩
    show ProofOfPossession.from_bytes pp.bytes = .ok pp
    rw [ProofOfPossession.from_bytes,
      except_bind_ok _ (pointG1_from_bytes_exact _ hlen), ← hpt]
    rfl

/-- A fixed non-canonical `4 * MODBYTES` byte string (all zeros). -/
def zeros128 : List Byte := List.replicate (MODBYTES * 4) 0

/-- A reachable `Generator` value used in witnesses. -/
def genW : Generator := { point := 0, bytes := zeros128 }

/-- A reachable `SignKey` value used in witnesses (`beNat [1, 2] = 258`). -/
def skW : SignKey := { group_order_element := ⟨258⟩, bytes := [1, 2] }

/-- A reachable `VerKey` value used in witnesses. -/
def vkW : VerKey := { point := 0, bytes := zeros128 }

/-- A reachable `Signature` value used in witnesses. -/
def sigW : Signature := { point := 0, bytes := zeros128 }

/-- A reachable `MultiSignature` value used in witnesses. -/
def msW : MultiSignature := { point := 0, bytes := zeros128 }

/-- A reachable `ProofOfPossession` value used in witnesses. -/
def popW : ProofOfPossession := { point := 0, bytes := zeros128 }

set_option maxRecDepth 100000 in
/-- Witness for C4 (amended), at concrete reachable values of each type. -/
theorem c4_amended_witness :
    (GroupOrderElement.from_bytes (GroupOrderElement.to_bytes ⟨5⟩) = .ok ⟨5⟩)
    ∧ (PointG1.from_bytes (PointG1.to_bytes 7) = .ok 7)
    ∧ (PointG2.from_bytes (PointG2.to_bytes 9) = .ok 9)
    ∧ (Generator.from_bytes (Generator.as_bytes genW) = .ok genW)
    ∧ (SignKey.from_bytes (SignKey.as_bytes skW) = .ok skW)
    ∧ (VerKey.from_bytes (VerKey.as_bytes vkW) = .ok vkW)
    ∧ (Signature.from_bytes (Signature.as_bytes sigW) = .ok sigW)
    ∧ (MultiSignature.from_bytes (MultiSignature.as_bytes msW) = .ok msW)
    ∧ (ProofOfPossession.from_bytes (ProofOfPossession.as_bytes popW) = .ok popW) :=
  ⟨(c4_amended_decode_encode_roundtrip.1 ⟨5⟩ (by decide)).1,
   (c4_amended_decode_encode_roundtrip.2.1 7).1,
   (c4_amended_decode_encode_roundtrip.2.2.1 9).1,
   (c4_amended_decode_encode_roundtrip.2.2.2.1 genW (by decide)).1,
   (c4_amended_decode_encode_roundtrip.2.2.2.2.1 skW (by decide)).1,
   (c4_amended_decode_encode_roundtrip.2.2.2.2.2.1 vkW (by decide)).1,
   (c4_amended_decode_encode_roundtrip.2.2.2.2.2.2.1 sigW (by decide)).1,
   (c4_amended_decode_encode_roundtrip.2.2.2.2.2.2.2.1 msW (by decide)).1,
   (c4_amended_decode_encode_roundtrip.2.2.2.2.2.2.2.2 popW (by decide)).1⟩

/-- C9: decoding a G1 or G2 point — and hence a `Generator`, `VerKey`,
`Signature`, `MultiSignature` or `ProofOfPossession` — from a byte string
whose length is not exactly `4 * MODBYTES` fails with `InvalidStructure`. -/
theorem c9_wrong_length_decode_fails (b : List Byte) (hb : b.length ≠ MODBYTES * 4) :
    PointG1.from_bytes b = .error (.InvalidStructure "Invalid len of bytes representation")
    ∧ PointG2.from_bytes b = .error (.InvalidStructure "Invalid len of bytes representation")
    ∧ Generator.from_bytes b = .error (.InvalidStructure "Invalid len of bytes representation")
    ∧ VerKey.from_bytes b = .error (.InvalidStructure "Invalid len of bytes representation")
    ∧ Signature.from_bytes b = .error (.InvalidStructure "Invalid len of bytes representation")
    ∧ MultiSignature.from_bytes b
        = .error (.InvalidStructure "Invalid len of bytes representation")
    ∧ ProofOfPossession.from_bytes b
        = .error (.InvalidStructure "Invalid len of bytes representation") := by
  have h1 : PointG1.from_bytes b
      = .error (.InvalidStructure "Invalid len of bytes representation") := by
    rw [PointG1.from_bytes, if_pos]
    simpa [PointG1.BYTES_REPR_SIZE] using hb
  have h2 : PointG2.from_bytes b
      = .error (.InvalidStructure "Invalid len of bytes representation") := by
    rw [PointG2.from_bytes, if_pos]
    simpa [PointG2.BYTES_REPR_SIZE] using hb
  refine ⟨h1, h2, ?_, ?_, ?_, ?_, ?_⟩
  · rw [Generator.from_bytes, h2]; rfl
  · rw [VerKey.from_bytes, h2]; rfl
  · rw [Signature.from_bytes, h1]; rfl
  · rw [MultiSignature.from_bytes, h1]; rfl
  · rw [ProofOfPossession.from_bytes, h1]; rfl

/-- Witness for C9: the spec's scenario S7, a 31-byte input to the G2
decoder, rejected with `InvalidStructure`. -/
theorem c9_witness :
    PointG2.from_bytes (List.replicate 31 0)
      = .error (.InvalidStructure "Invalid len of bytes representation") :=
  (c9_wrong_length_decode_fails (List.replicate 31 0) (by decide)).2.1

/-- C10: for every byte string of accepted length, the wrapper `from_bytes`
constructors store the input verbatim — `as_bytes` on the result returns
exactly the input, whether or not it is a canonical point encoding, with no
validation beyond the length check (accepted length is `4 * MODBYTES` for
the point wrappers, and at most `MODBYTES` for `SignKey`). -/
theorem c10_from_bytes_stores_verbatim (b : List Byte) :
    (b.length = MODBYTES * 4 →
      (Generator.from_bytes b).map Generator.as_bytes = .ok b
      ∧ (VerKey.from_bytes b).map VerKey.as_bytes = .ok b
      ∧ (Signature.from_bytes b).map Signature.as_bytes = .ok b
      ∧ (MultiSignature.from_bytes b).map MultiSignature.as_bytes = .ok b
      ∧ (ProofOfPossession.from_bytes b).map ProofOfPossession.as_bytes = .ok b)
    ∧ (b.length ≤ MODBYTES →
      (SignKey.from_bytes b).map SignKey.as_bytes = .ok b) := by
  constructor
  · intro hb
    have h1 := pointG1_from_bytes_exact b hb
    have h2 := pointG2_from_bytes_exact b hb
    refine ⟨?_, ?_, ?_, ?_, ?_⟩
    · rw [Generator.from_bytes, except_bind_ok _ h2]; rfl
    · rw [VerKey.from_bytes, except_bind_ok _ h2]; rfl
    · rw [Signature.from_bytes, except_bind_ok _ h1]; rfl
    · rw [MultiSignature.from_bytes, except_bind_ok _ h1]; rfl
    · rw [ProofOfPossession.from_bytes, except_bind_ok _ h1]; rfl
  · intro hb
    rw [SignKey.from_bytes, except_bind_ok _ (GroupOrderElement.from_bytes_of_le b hb)]
    rfl

set_option maxRecDepth 100000 in
/-- Witness for C10: a non-canonical all-sevens 128-byte input round-trips
verbatim through `Generator::from_bytes`, and a 3-byte input through
`SignKey::from_bytes`. -/
theorem c10_witness :
    (Generator.from_bytes (List.replicate (MODBYTES * 4) 7)).map Generator.as_bytes
      = .ok (List.replicate (MODBYTES * 4) 7)
    ∧ (SignKey.from_bytes [1, 2, 3]).map SignKey.as_bytes = .ok [1, 2, 3] :=
  ⟨((c10_from_bytes_stores_verbatim _).1 (by decide)).1,
   (c10_from_bytes_stores_verbatim _).2 (by decide)⟩

/-- Folding the group addition from the identity computes the list sum. -/
theorem foldl_add_eq_sum {α : Type} (f : α → ZMod rOrder) (l : List α) (i : ZMod rOrder) :
    l.foldl (fun acc x => acc + f x) i = i + (l.map f).sum := by
  induction l generalizing i with
  | nil => simp
  | cons x xs ih => simp [ih, add_assoc]

/-- C8: `MultiSignature::new` produces identical output (in particular
byte-identical output) on any permutation of its signature list, and
`verify_multi_sig` returns the same result on any permutation of its
verification-key list. -/
theorem c8_permutation_invariance :
    (∀ sigs sigs2 : List Signature, sigs.Perm sigs2 →
      MultiSignature.new sigs = MultiSignature.new sigs2)
    ∧ (∀ (ms : MultiSignature) (m : List Byte) (vks vks2 : List VerKey) (g : Generator),
        vks.Perm vks2 →
        Bls.verify_multi_sig ms m vks g = Bls.verify_multi_sig ms m vks2 g) := by
  constructor
  · intro sigs sigs2 hperm
    have hpt : sigs.foldl (fun acc s => PointG1.add acc s.point) PointG1.new_inf
        = sigs2.foldl (fun acc s => PointG1.add acc s.point) PointG1.new_inf := by
      simp only [PointG1.add, PointG1.new_inf]
      rw [foldl_add_eq_sum Signature.point sigs 0,
        foldl_add_eq_sum Signature.point sigs2 0,
        List.Perm.sum_eq (hperm.map Signature.point)]
    simp only [MultiSignature.new]
    rw [hpt]
  · intro ms m vks vks2 g hperm
    have hagg : vks.foldl (fun acc vk => PointG2.add acc vk.point) PointG2.new_inf
        = vks2.foldl (fun acc vk => PointG2.add acc vk.point) PointG2.new_inf := by
      simp only [PointG2.add, PointG2.new_inf]
      rw [foldl_add_eq_sum VerKey.point vks 0,
        foldl_add_eq_sum VerKey.point vks2 0,
        List.Perm.sum_eq (hperm.map VerKey.point)]
    simp only [Bls.verify_multi_sig]
    rw [hagg]

/-- A second `Signature` value used in witnesses. -/
def sigW2 : Signature := { point := 1, bytes := zeros128 }

/-- A second `VerKey` value used in witnesses. -/
def vkW2 : VerKey := { point := 1, bytes := zeros128 }

/-- Witness for C8: a concrete two-element swap for both aggregation and
aggregate verification. -/
theorem c8_witness :
    MultiSignature.new [sigW, sigW2] = MultiSignature.new [sigW2, sigW]
    ∧ Bls.verify_multi_sig msW [1] [vkW, vkW2] genW
        = Bls.verify_multi_sig msW [1] [vkW2, vkW] genW :=
  ⟨c8_permutation_invariance.1 _ _ (List.Perm.swap sigW2 sigW []),
   c8_permutation_invariance.2 msW [1] _ _ genW (List.Perm.swap vkW2 vkW [])⟩

/-- `verify` returns `Ok(true)` exactly when the pairing equation holds. -/
theorem verify_ok_true_iff (s : Signature) (m : List Byte) (vk : VerKey) (g : Generator) :
    Bls.verify s m vk g = .ok true ↔
      Pair.pair s.point g.point
        = Pair.pair (PointG1.newBigPoint (beNat (sha256Model m))) vk.point := by
  rw [Bls.verify, Bls._verify_signature_eq _ _ _ _ _ (sha256Model_length m)]
  constructor
  · intro h
    exact of_decide_eq_true (Except.ok.inj h)
  · intro h
    exact congrArg Except.ok (decide_eq_true h)

/-- Pointwise pairing equations propagate to the folded sums on both sides. -/
theorem forall2_pair_sum_shift (hpt : PointG1) (g : Generator)
    (sigs : List Signature) (vks : List VerKey)
    (h : List.Forall₂ (fun (s : Signature) (vk : VerKey) =>
      Pair.pair s.point g.point = Pair.pair hpt vk.point) sigs vks) :
    Pair.pair (sigs.foldl (fun acc s => PointG1.add acc s.point) PointG1.new_inf) g.point
      = Pair.pair hpt
          (vks.foldl (fun acc vk => PointG2.add acc vk.point) PointG2.new_inf) := by
  have hs : ((sigs.map Signature.point).sum) * g.point
      = hpt * ((vks.map VerKey.point).sum) := by
    induction h with
    | nil => simp
    | cons hx hrest ih =>
      simp only [Pair.pair] at hx
      simp only [List.map_cons, List.sum_cons, add_mul, mul_add, hx, ih]
  simp only [PointG1.add, PointG1.new_inf, PointG2.add, PointG2.new_inf]
  rw [foldl_add_eq_sum Signature.point sigs 0, foldl_add_eq_sum VerKey.point vks 0]
  simpa [Pair.pair] using hs

/-- C2 (amended): for a non-empty signature list whose verification keys
all pass a proof-of-possession check, if every signature individually
verifies against its key then the aggregated multi-signature verifies
against the key list (the "if" direction of the claim; the converse is
false, see the counterexample). -/
theorem c2_amended_individual_implies_multi (sigs : List Signature) (vks : List VerKey)
    (m : List Byte) (g : Generator)
    (hne : sigs ≠ [])
    (hpop : ∀ vk ∈ vks, ∃ pop : ProofOfPossession,
      Bls.verify_proof_of_posession pop vk g = .ok true)
    (hall : List.Forall₂ (fun s vk => Bls.verify s m vk g = .ok true) sigs vks) :
    Bls.verify_multi_sig (MultiSignature.new sigs) m vks g = .ok true := by
  have hall2 : List.Forall₂ (fun (s : Signature) (vk : VerKey) =>
      Pair.pair s.point g.point
        = Pair.pair (PointG1.newBigPoint (beNat (sha256Model m))) vk.point) sigs vks :=
    hall.imp (fun s vk hsv => (verify_ok_true_iff s m vk g).mp hsv)
  simp only [Bls.verify_multi_sig, MultiSignature.new]
  rw [Bls._verify_signature_eq _ _ _ _ _ (sha256Model_length m)]
  exact congrArg Except.ok (decide_eq_true (forall2_pair_sum_shift _ g sigs vks hall2))

/-- Concrete generator for the C2 counterexample: the G2 element `1` with
its canonical bytes. -/
def genC2 : Generator := { point := 1, bytes := ECP2.tobytes 1 }

/-- Concrete sign key `1` for the C2 counterexample. -/
def skC2 : SignKey := { group_order_element := ⟨1⟩, bytes := GroupOrderElement.to_bytes ⟨1⟩ }

/-- Its verification key. -/
def vkC2 : VerKey := VerKey.new genC2 skC2

/-- The message of the C2 counterexample (the repository's test message). -/
def msgC2 : List Byte := [1, 2, 3, 4, 5]

/-- The hash-to-G1 of the message under the SHA-256 model. -/
def hC2 : PointG1 := PointG1.newBigPoint (beNat (sha256Model msgC2))

/-- A tampered signature: the honest signature for `skC2` shifted by `+1`. -/
def sigC2a : Signature := { point := hC2 + 1, bytes := PointG1.to_bytes (hC2 + 1) }

/-- A tampered signature shifted by `-1`, cancelling `sigC2a`'s shift. -/
def sigC2b : Signature := { point := hC2 - 1, bytes := PointG1.to_bytes (hC2 - 1) }

/-- An honest proof of possession for `vkC2`. -/
def popC2 : ProofOfPossession :=
  { point := PointG1.mul (PointG1.newBigPoint (beNat (keccak256Model vkC2.bytes))) ⟨1⟩,
    bytes := [] }

set_option maxRecDepth 1000000 in
/-- C2 (counterexample): two tampered signatures whose shifts cancel.  Both
verification keys (the same pop-validated key twice) pass `verify_pop`, the
aggregated multi-signature verifies with `Ok(true)`, yet the first signature
individually returns `Ok(false)` — refuting the "only if" direction of the
claimed equivalence. -/
theorem c2_counterexample_aggregate_verifies_but_individual_fails :
    Bls.verify_multi_sig (MultiSignature.new [sigC2a, sigC2b]) msgC2 [vkC2, vkC2] genC2
      = .ok true
    ∧ Bls.verify_proof_of_posession popC2 vkC2 genC2 = .ok true
    ∧ Bls.verify sigC2a msgC2 vkC2 genC2 = .ok false := by decide

/-- An honest signature on `msgC2` by `skC2`. -/
def sigGood : Signature :=
  { point := PointG1.mul hC2 ⟨1⟩, bytes := PointG1.to_bytes (PointG1.mul hC2 ⟨1⟩) }

set_option maxRecDepth 1000000 in
/-- Witness for C2 (amended): a singleton honest signature with a
pop-validated key, where the aggregate verifies. -/
theorem c2_amended_witness :
    Bls.verify_multi_sig (MultiSignature.new [sigGood]) msgC2 [vkC2] genC2 = .ok true :=
  c2_amended_individual_implies_multi [sigGood] [vkC2] msgC2 genC2
    (by simp)
    (by
      intro vk hvk
      simp only [List.mem_singleton] at hvk
      subst hvk
      exact ⟨popC2, by decide⟩)
    (List.Forall₂.cons (by decide) List.Forall₂.nil)
